import Mathlib

/-!
Shallow embedding of the program state cache of rpcs3
(rpcs3/Emu/RSX/Common/ProgramStateCache.h): the vertex and fragment stage
program caches, the pipeline cache keyed by stage identities plus
properties, and fragment constant extraction.

The two unordered maps of the cache are modelled as association lists in
insertion order; every lookup goes through the corresponding key-equality
comparator, as in the C++ maps. External collaborators (the backend traits
and the microcode decoder) appear as a record of functions.
-/

namespace Rpcs3

/-- Guest memory, byte addressed: models the vm memory-resolution
collaborator behind vm::base. -/
abbrev Mem := Nat → Nat

/-- Reading one byte of guest memory (values reduced to byte range). -/
def readByte (mem : Mem) (a : Nat) : Nat := mem a % 256

/-- Reading n consecutive bytes of guest memory starting at address a. -/
def readBytes (mem : Mem) (a n : Nat) : List Nat :=
  (List.range n).map (fun i => readByte mem (a + i))

/-- RSXVertexProgram: the caller-supplied vertex binary, an owned sequence
of 32-bit words (the data member used as the vertex cache key). -/
structure RSXVertexProgram where
  data : List Nat
deriving DecidableEq, Repr

/-- RSXFragmentProgram: the fragment binary is addressed, not embedded; the
cache reads it through guest memory at this address. -/
structure RSXFragmentProgram where
  addr : Nat
deriving DecidableEq, Repr

/-- Backend vertex program record: the traits contract requires an Id
member, assigned by recompile_vertex_program from the passed identity. -/
structure vertex_program_type where
  id : Nat
deriving DecidableEq, Repr

/-- Backend fragment program record: an Id member and the fragment constant
offset vector recorded at recompilation. -/
structure fragment_program_type where
  id : Nat
  FragmentConstantOffsetCache : List Nat
deriving DecidableEq, Repr

/-- pipeline_key: vertex program id, fragment program id and the opaque
pipeline properties (modelled as a Nat, equality-comparable). -/
structure pipeline_key where
  vertex_program_id : Nat
  fragment_program_id : Nat
  properties : Nat
deriving DecidableEq, Repr

/-- External collaborators: scan models
program_hash_util::fragment_program_utils::get_fragment_program_ucode_size
(declared in the header, defined outside src), offsetsOf models the
constant-offset list that backend_traits::recompile_fragment_program
records for a fragment binary, build_pipeline models
backend_traits::build_pipeline (extra arguments folded in). -/
structure backend_traits where
  scan : Mem → Nat → Nat
  offsetsOf : Mem → Nat → List Nat
  build_pipeline : vertex_program_type → fragment_program_type → Nat → Nat

/-- The private state of program_state_cache: the shared identity counter,
both stage caches and the pipeline storage. Stored fragment keys are the
owned byte copies made at insertion. -/
structure CacheState where
  m_next_id : Nat
  m_vertex_shader_cache : List (List Nat × vertex_program_type)
  m_fragment_shader_cache : List (List Nat × fragment_program_type)
  m_storage : List (pipeline_key × Nat)
deriving DecidableEq, Repr

/-- A default-constructed program_state_cache. -/
def program_state_cache_init : CacheState := ⟨0, [], [], []⟩

/-- Modelled from the spec: program_hash_util::vertex_program_compare (its
body is not under src); two vertex binaries are equal iff they have
identical length and identical word-for-word content. -/
def vertex_program_compare (binary1 binary2 : List Nat) : Bool := binary1 == binary2

/-- Modelled from the spec: program_hash_util::fragment_program_compare
(its body is not under src); equality compares the scanned length first,
then byte content up to that length. The probe side is live guest memory at
an address; the stored side is an owned copy whose scanned length is its
own length, since the copy was cut at the scanned end marker. -/
def fragment_program_compare (B : backend_traits) (mem : Mem) (addr : Nat)
    (copy : List Nat) : Bool :=
  (B.scan mem addr == copy.length) && (readBytes mem addr copy.length == copy)

/-- Modelled from the spec: program_hash_util::fragment_program_hash (its
body is not under src); a hash computed only over the bytes up to the
scanned length of the binary. -/
def fragment_program_hash (B : backend_traits) (mem : Mem) (addr : Nat) : Nat :=
  (readBytes mem addr (B.scan mem addr)).foldl (fun h b => (h * 31 + b) % 2 ^ 64) 0

/-- pipeline_key_compare: structural equality over all three fields. -/
def pipeline_key_compare (key1 key2 : pipeline_key) : Bool :=
  (key1.vertex_program_id == key2.vertex_program_id) &&
  (key1.fragment_program_id == key2.fragment_program_id) &&
  (key1.properties == key2.properties)

/-- Modelled from the spec: backend_traits::recompile_vertex_program
populates the backend record and assigns the passed identity to its Id
member. -/
def recompile_vertex_program (id : Nat) : vertex_program_type := ⟨id⟩

/-- Modelled from the spec: backend_traits::recompile_fragment_program
assigns the passed identity and records the decoded constant-offset list of
the fragment binary. -/
def recompile_fragment_program (B : backend_traits) (mem : Mem) (addr id : Nat) :
    fragment_program_type := ⟨id, B.offsetsOf mem addr⟩

/-- search_vertex_program: look the binary up by content; on a miss insert
a new record recompiled with identity m_next_id and increment the counter.
The bool reports that the program was preexisting. -/
def search_vertex_program (st : CacheState) (rsx_vp : RSXVertexProgram) :
    vertex_program_type × Bool × CacheState :=
  match st.m_vertex_shader_cache.find? (fun e => vertex_program_compare e.1 rsx_vp.data) with
  | some e => (e.2, true, st)
  | none =>
    let new_shader := recompile_vertex_program st.m_next_id
    (new_shader, false,
      { st with
        m_next_id := st.m_next_id + 1,
        m_vertex_shader_cache := st.m_vertex_shader_cache ++ [(rsx_vp.data, new_shader)] })

/-- search_fragment_program: look up through the content comparator at the
live guest address; on a miss copy fragment_program_size bytes out of guest
memory, insert the recompiled record under that owned copy with identity
m_next_id, and increment the counter. -/
def search_fragment_program (B : backend_traits) (st : CacheState) (mem : Mem)
    (rsx_fp : RSXFragmentProgram) : fragment_program_type × Bool × CacheState :=
  match st.m_fragment_shader_cache.find? (fun e => fragment_program_compare B mem rsx_fp.addr e.1) with
  | some e => (e.2, true, st)
  | none =>
    let fragment_program_size := B.scan mem rsx_fp.addr
    let fragment_program_ucode_copy := readBytes mem rsx_fp.addr fragment_program_size
    let new_shader := recompile_fragment_program B mem rsx_fp.addr st.m_next_id
    (new_shader, false,
      { st with
        m_next_id := st.m_next_id + 1,
        m_fragment_shader_cache :=
          st.m_fragment_shader_cache ++ [(fragment_program_ucode_copy, new_shader)] })

/-- Result of one of the const get operations: a returned record, a thrown
EXCEPTION with its message, or the undefined behavior of dereferencing the
end iterator of the map. -/
inductive get_result (α : Type) where
  | found : α → get_result α
  | raised : String → get_result α
  | deref_end : get_result α
deriving DecidableEq, Repr

/-- get_transform_program, exactly as written in the source: when find
reaches the end iterator (the binary is not present) the code returns
I->second, dereferencing the end iterator; when the binary is present it
falls through to the throw. -/
def get_transform_program (st : CacheState) (rsx_vp : RSXVertexProgram) :
    get_result vertex_program_type :=
  match st.m_vertex_shader_cache.find? (fun e => vertex_program_compare e.1 rsx_vp.data) with
  | none => get_result.deref_end
  | some _ => get_result.raised "Trying to get unknow transform program"

/-- get_shader_program: returns the record when the binary is present and
throws otherwise. -/
def get_shader_program (B : backend_traits) (st : CacheState) (mem : Mem)
    (rsx_fp : RSXFragmentProgram) : get_result fragment_program_type :=
  match st.m_fragment_shader_cache.find? (fun e => fragment_program_compare B mem rsx_fp.addr e.1) with
  | some e => get_result.found e.2
  | none => get_result.raised "Trying to get unknow shader program"

/-- unordered_map operator[] assignment on m_storage: replace the value of
the entry whose key compares equal, or append a fresh entry. -/
def storage_insert : List (pipeline_key × Nat) → pipeline_key → Nat → List (pipeline_key × Nat)
  | [], key, v => [(key, v)]
  | e :: rest, key, v =>
    if pipeline_key_compare e.1 key then (e.1, v) :: rest else e :: storage_insert rest key v

/-- getGraphicPipelineState: resolve both stage programs, compose the key
from their ids and the properties, probe m_storage only when both stage
lookups were hits, and otherwise (or on a probe miss) build the pipeline
and store it under the key. The bool in the result reports whether
build_pipeline was invoked. -/
def getGraphicPipelineState (B : backend_traits) (st : CacheState)
    (vertexShader : RSXVertexProgram) (mem : Mem) (fragmentShader : RSXFragmentProgram)
    (pipelineProperties : Nat) : Nat × Bool × CacheState :=
  let vp_search := search_vertex_program st vertexShader
  let fp_search := search_fragment_program B vp_search.2.2 mem fragmentShader
  let vertex_program := vp_search.1
  let fragment_program := fp_search.1
  let already_existing_vertex_program := vp_search.2.1
  let already_existing_fragment_program := fp_search.2.1
  let st2 := fp_search.2.2
  let key : pipeline_key := ⟨vertex_program.id, fragment_program.id, pipelineProperties⟩
  match
    (if already_existing_fragment_program && already_existing_vertex_program then
      st2.m_storage.find? (fun e => pipeline_key_compare e.1 key)
    else none) with
  | some e => (e.2, false, st2)
  | none =>
    let p := B.build_pipeline vertex_program fragment_program pipelineProperties
    (p, true, { st2 with m_storage := storage_insert st2.m_storage key p })

/-- Modelled from the spec: the variant of getGraphicPipelineState that
always probes the pipeline table for the key before building, regardless of
whether either stage program was freshly compiled. -/
def getGraphicPipelineState_always_probe (B : backend_traits) (st : CacheState)
    (vertexShader : RSXVertexProgram) (mem : Mem) (fragmentShader : RSXFragmentProgram)
    (pipelineProperties : Nat) : Nat × Bool × CacheState :=
  let vp_search := search_vertex_program st vertexShader
  let fp_search := search_fragment_program B vp_search.2.2 mem fragmentShader
  let vertex_program := vp_search.1
  let fragment_program := fp_search.1
  let st2 := fp_search.2.2
  let key : pipeline_key := ⟨vertex_program.id, fragment_program.id, pipelineProperties⟩
  match st2.m_storage.find? (fun e => pipeline_key_compare e.1 key) with
  | some e => (e.2, false, st2)
  | none =>
    let p := B.build_pipeline vertex_program fragment_program pipelineProperties
    (p, true, { st2 with m_storage := storage_insert st2.m_storage key p })

/-- get_fragment_constants_buffer_size: on a cache hit the offset count
times 4 components times sizeof(float); otherwise 0. The bool reports that
the LOG_ERROR diagnostic was emitted. -/
def get_fragment_constants_buffer_size (B : backend_traits) (st : CacheState)
    (mem : Mem) (fragmentShader : RSXFragmentProgram) : Nat × Bool :=
  match st.m_fragment_shader_cache.find? (fun e => fragment_program_compare B mem fragmentShader.addr e.1) with
  | some e => (e.2.FragmentConstantOffsetCache.length * 4 * 4, false)
  | none => (0, true)

/-- Byte selection of the _mm_shuffle_epi8 mask built by
_mm_set_epi8(0xE, 0xF, 0xC, 0xD, 0xA, 0xB, 0x8, 0x9, 0x6, 0x7, 0x4, 0x5,
0x2, 0x3, 0x0, 0x1): destination byte i takes source byte shuffle_mask[i];
_mm_set_epi8 lists bytes from most significant down, so mask byte 0 is the
last argument 0x1. -/
def shuffle_mask : List Nat := [1, 0, 3, 2, 5, 4, 7, 6, 9, 8, 11, 10, 13, 12, 15, 14]

/-- The effect of _mm_shuffle_epi8 with shuffle_mask on a 16-byte group. -/
def shuffle_bytes (s : List Nat) : List Nat := shuffle_mask.map (fun i => s.getD i 0)

/-- One _mm_stream_si128 store of a 16-byte group at byte position pos of
the destination buffer. -/
def write_group (dst : List Nat) (pos : Nat) (g : List Nat) : List Nat :=
  dst.take pos ++ g ++ dst.drop (pos + g.length)

/-- The extraction loop of fill_fragment_constans_buffer: offset counts f32
elements and advances by sizeof(f32) per constant, and the store through
dst_buffer.subspan(offset, 4).data() lands at byte position 4 * offset. -/
def fill_loop (mem : Mem) (addr : Nat) : List Nat → List Nat → Nat → List Nat
  | [], dst, _ => dst
  | offset_in_fragment_program :: rest, dst, offset =>
    let data := readBytes mem (addr + offset_in_fragment_program) 16
    let shuffled_vector := shuffle_bytes data
    fill_loop mem addr rest (write_group dst (4 * offset) shuffled_vector) (offset + 4)

/-- fill_fragment_constans_buffer over a byte-modelled destination buffer:
an unresolved binary returns the buffer unchanged (the early return sits
before the precondition check); none models the fatal Expects violation
when the buffer is smaller than offsetCount * 16 bytes. The member is
const, so no cache state is produced or changed. -/
def fill_fragment_constans_buffer (B : backend_traits) (st : CacheState)
    (dst_buffer : List Nat) (mem : Mem) (fragment_program : RSXFragmentProgram) :
    Option (List Nat) :=
  match st.m_fragment_shader_cache.find? (fun e => fragment_program_compare B mem fragment_program.addr e.1) with
  | none => some dst_buffer
  | some e =>
    if e.2.FragmentConstantOffsetCache.length * 16 ≤ dst_buffer.length then
      some (fill_loop mem fragment_program.addr e.2.FragmentConstantOffsetCache dst_buffer 0)
    else none

/-- One draw request against the cache: the inputs of one
getGraphicPipelineState call. -/
structure DrawOp where
  vp : RSXVertexProgram
  mem : Mem
  fp : RSXFragmentProgram
  props : Nat

/-- The cache state after one draw request. -/
def run1 (B : backend_traits) (st : CacheState) (op : DrawOp) : CacheState :=
  (getGraphicPipelineState B st op.vp op.mem op.fp op.props).2.2

/-- The cache state after a sequence of draw requests. -/
def run (B : backend_traits) (st : CacheState) : List DrawOp → CacheState
  | [] => st
  | op :: ops => run B (run1 B st op) ops

/-- The identities freshly assigned during one getGraphicPipelineState
call, in insertion order: the vertex search runs first, then the fragment
search. -/
def fresh_ids_of (B : backend_traits) (st : CacheState) (op : DrawOp) : List Nat :=
  let vp_search := search_vertex_program st op.vp
  let fp_search := search_fragment_program B vp_search.2.2 op.mem op.fp
  (if vp_search.2.1 then [] else [vp_search.1.id]) ++
  (if fp_search.2.1 then [] else [fp_search.1.id])

/-- All identities freshly assigned over a sequence of draw requests, in
insertion order. -/
def run_ids (B : backend_traits) (st : CacheState) : List DrawOp → List Nat
  | [] => []
  | op :: ops => fresh_ids_of B st op ++ run_ids B (run1 B st op) ops

/-- The identities currently stored in both stage caches. -/
def cache_ids (st : CacheState) : List Nat :=
  st.m_vertex_shader_cache.map (fun e => e.2.id) ++
  st.m_fragment_shader_cache.map (fun e => e.2.id)

/-- Invariant: every identity stored in a stage cache, and every identity
occurring in a stored pipeline key, is below the counter. -/
def ids_bounded (st : CacheState) : Prop :=
  (∀ e ∈ st.m_vertex_shader_cache, e.2.id < st.m_next_id) ∧
  (∀ e ∈ st.m_fragment_shader_cache, e.2.id < st.m_next_id) ∧
  (∀ e ∈ st.m_storage,
    e.1.vertex_program_id < st.m_next_id ∧ e.1.fragment_program_id < st.m_next_id)

/-- A concrete backend used to instantiate universally quantified theorems:
binaries scan to 48 bytes with constants recorded at offsets 16 and 32. -/
def B1 : backend_traits :=
  ⟨fun _ _ => 48, fun _ _ => [16, 32], fun v f p => v.id * 100 + f.id * 10 + p⟩

/-- A concrete guest memory holding byte i mod 256 at address i. -/
def mem_id : Mem := fun i => i

/-- A concrete guest memory holding 0 everywhere. -/
def mem0 : Mem := fun _ => 0

/-- The concatenation of the shuffled 16-byte groups read at the recorded
constant offsets, in offset-list order: the closed form of the extraction
loop's writes. -/
def groups_concat (mem : Mem) (addr : Nat) (offsets : List Nat) : List Nat :=
  offsets.flatMap (fun o => shuffle_bytes (readBytes mem (addr + o) 16))

/-- Backend for the spec scenario of §8: a 48-byte fragment binary with one
constant recorded at offset 16. -/
def B_c2 : backend_traits := ⟨fun _ _ => 48, fun _ _ => [16], fun _ _ _ => 0⟩

/-- Guest memory for the spec scenario: at bytes 16..31 the big-endian
32-bit lanes 0x3F800000, 0x40000000, 0x40400000, 0x40800000 (the floats
1.0, 2.0, 3.0, 4.0), zero elsewhere. -/
def mem_c2 : Mem := fun i =>
  if i < 16 then 0
  else [0x3F, 0x80, 0, 0, 0x40, 0, 0, 0, 0x40, 0x40, 0, 0, 0x40, 0x80, 0, 0].getD (i - 16) 0

/-- The cache after resolving the scenario's fragment binary at address 0. -/
def st_c2 : CacheState :=
  (search_fragment_program B_c2 program_state_cache_init mem_c2 ⟨0⟩).2.2

/-- Backend for the live-memory scenario: binaries scan to 16 bytes and the
decoder records one constant offset, 16, reaching past the copied bytes. -/
def B_c10 : backend_traits := ⟨fun _ _ => 16, fun _ _ => [16], fun _ _ _ => 0⟩

/-- The cache after resolving the fragment binary at address 0 while guest
memory held zeroes everywhere. -/
def st_c10 : CacheState :=
  (search_fragment_program B_c10 program_state_cache_init mem0 ⟨0⟩).2.2

/-- Guest memory after the overwrite: the binary's first 16 bytes are still
zero (so the cache lookup still hits), but everything past them changed. -/
def mem_c10 : Mem := fun i => if i < 16 then 0 else i

/-- Backend whose scanner reports 4-byte binaries. -/
def B_c7 : backend_traits := ⟨fun _ _ => 4, fun _ _ => [7], fun _ _ _ => 0⟩

/-- Two 4-byte binaries of bytes 9 9 9 9 at addresses 0 and 100, with
different trailing garbage past the scanned length. -/
def mem_c7 : Mem := fun i => if i % 100 < 4 then 9 else i

/-- A memory agreeing with mem_c7 on the scanned bytes at address 0 but
nowhere beyond. -/
def mem_c7b : Mem := fun i => if i < 4 then 9 else 77

/-! ## Helper lemmas -/

theorem readBytes_length (mem : Mem) (a n : Nat) : (readBytes mem a n).length = n := by
  simp [readBytes]

theorem fragment_program_compare_iff (B : backend_traits) (mem : Mem) (addr : Nat)
    (copy : List Nat) :
    fragment_program_compare B mem addr copy = true ↔
      copy = readBytes mem addr (B.scan mem addr) := by
  unfold fragment_program_compare
  rw [Bool.and_eq_true, beq_iff_eq, beq_iff_eq]
  constructor
  · rintro ⟨h1, h2⟩
    rw [← h2, h1]
  · rintro rfl
    refine ⟨(readBytes_length mem addr _).symm, ?_⟩
    rw [readBytes_length]

theorem find?_append_none {α : Type} {p : α → Bool} {l : List α}
    (h : l.find? p = none) (l2 : List α) : (l ++ l2).find? p = l2.find? p := by
  rw [List.find?_append, h, Option.none_or]

theorem find?_congr_pred {α : Type} {p q : α → Bool} (h : ∀ a, p a = q a) (l : List α) :
    l.find? p = l.find? q := by
  rw [funext h]

/-! ## C1 -/

/-- C1: the claim says get_transform_program returns the existing record
for a resolved vertex binary and raises for a never-resolved one. The code
has the comparison at ProgramStateCache.h line 155 inverted: after
resolving the binary [1, 2, 3], get_transform_program on that very binary
throws the "unknow transform program" exception, and on a never-resolved
binary it dereferences the end iterator (undefined behavior) instead of
raising; get_shader_program implements the intended behavior. -/
theorem C1_get_inverted_comparison :
    (get_transform_program
        (search_vertex_program program_state_cache_init ⟨[1, 2, 3]⟩).2.2 ⟨[1, 2, 3]⟩ =
      get_result.raised "Trying to get unknow transform program") ∧
    (get_transform_program
        (search_vertex_program program_state_cache_init ⟨[1, 2, 3]⟩).2.2 ⟨[7]⟩ =
      get_result.deref_end) ∧
    (get_shader_program B1
        (search_fragment_program B1 program_state_cache_init mem0 ⟨0⟩).2.2 mem0 ⟨0⟩ =
      get_result.found ⟨0, [16, 32]⟩) ∧
    (get_shader_program B1 program_state_cache_init mem0 ⟨0⟩ =
      get_result.raised "Trying to get unknow shader program") := by
  refine ⟨by decide, by decide, by decide, by decide⟩

/-! ## C9 -/

/-- C9: for a fragment binary that has not been resolved (no entry of the
fragment cache matches it), fill_fragment_constans_buffer returns without
writing any byte of the destination buffer; the member is const, so no
cache state is touched. -/
theorem C9_fill_unresolved_noop (B : backend_traits) (st : CacheState)
    (dst : List Nat) (mem : Mem) (fp : RSXFragmentProgram)
    (h : st.m_fragment_shader_cache.find?
        (fun e => fragment_program_compare B mem fp.addr e.1) = none) :
    fill_fragment_constans_buffer B st dst mem fp = some dst := by
  unfold fill_fragment_constans_buffer
  rw [h]

/-- Witness for C9 at a concrete unresolved binary. -/
theorem C9_fill_unresolved_noop_witness :
    fill_fragment_constans_buffer B1 program_state_cache_init [1, 2, 3] mem0 ⟨0⟩ =
      some [1, 2, 3] :=
  C9_fill_unresolved_noop B1 program_state_cache_init [1, 2, 3] mem0 ⟨0⟩ (by decide)

/-! ## C8 -/

/-- C8: once a fragment binary's program is resolved via
search_fragment_program, get_fragment_constants_buffer_size on that binary
returns exactly offsetCount * 16 bytes, offsetCount being the length of the
resolved program's constant-offset list, with no diagnostic; for a binary
never resolved it returns 0 and emits the LOG_ERROR diagnostic. -/
theorem C8_constants_buffer_size (B : backend_traits) (st : CacheState)
    (mem : Mem) (fp : RSXFragmentProgram) :
    (get_fragment_constants_buffer_size B
        (search_fragment_program B st mem fp).2.2 mem fp =
      ((search_fragment_program B st mem fp).1.FragmentConstantOffsetCache.length * 16,
        false)) ∧
    (st.m_fragment_shader_cache.find?
        (fun e => fragment_program_compare B mem fp.addr e.1) = none →
      get_fragment_constants_buffer_size B st mem fp = (0, true)) := by
  constructor
  · unfold search_fragment_program get_fragment_constants_buffer_size
    cases h : st.m_fragment_shader_cache.find?
        (fun e => fragment_program_compare B mem fp.addr e.1) with
    | some e =>
      simp only [h]
      rw [Nat.mul_assoc]
    | none =>
      simp only [h]
      rw [find?_append_none h]
      rw [List.find?_cons_of_pos _ (by
        rw [fragment_program_compare_iff])]
      show (_ * 4 * 4, false) = (_ * 16, false)
      rw [Nat.mul_assoc]
  · intro h
    unfold get_fragment_constants_buffer_size
    rw [h]

/-- Witness for C8: with backend B1 the resolved program records two
constant offsets, so the size is 32; the unresolved query returns 0 with
the diagnostic. -/
theorem C8_constants_buffer_size_witness :
    (get_fragment_constants_buffer_size B1
        (search_fragment_program B1 program_state_cache_init mem0 ⟨0⟩).2.2 mem0 ⟨0⟩ =
      ((search_fragment_program B1 program_state_cache_init mem0 ⟨0⟩).1.FragmentConstantOffsetCache.length * 16,
        false)) ∧
    (get_fragment_constants_buffer_size B1 program_state_cache_init mem0 ⟨0⟩ = (0, true)) :=
  ⟨(C8_constants_buffer_size B1 program_state_cache_init mem0 ⟨0⟩).1,
    (C8_constants_buffer_size B1 program_state_cache_init mem0 ⟨0⟩).2 (by decide)⟩

/-! ## C3 -/

/-- C3: resolving the same stage binary twice yields the same StageProgram
record (hence the same identity), the second resolution reports
preexisting, and the cache state is unchanged by the second call, so no
second record is inserted. The vertex binary is compared by content (the
owned word vector is the key); the two fragment binaries are content-equal
when their scanned byte prefixes agree, even at different addresses or in
different memory states. -/
theorem C3_resolve_idempotent (B : backend_traits) (st : CacheState)
    (vp : RSXVertexProgram) (mem1 mem2 : Mem) (fp1 fp2 : RSXFragmentProgram)
    (hcontent : readBytes mem2 fp2.addr (B.scan mem2 fp2.addr) =
      readBytes mem1 fp1.addr (B.scan mem1 fp1.addr)) :
    ((search_vertex_program (search_vertex_program st vp).2.2 vp).1 =
        (search_vertex_program st vp).1 ∧
      (search_vertex_program (search_vertex_program st vp).2.2 vp).2.1 = true ∧
      (search_vertex_program (search_vertex_program st vp).2.2 vp).2.2 =
        (search_vertex_program st vp).2.2) ∧
    ((search_fragment_program B (search_fragment_program B st mem1 fp1).2.2 mem2 fp2).1 =
        (search_fragment_program B st mem1 fp1).1 ∧
      (search_fragment_program B (search_fragment_program B st mem1 fp1).2.2 mem2 fp2).2.1 =
        true ∧
      (search_fragment_program B (search_fragment_program B st mem1 fp1).2.2 mem2 fp2).2.2 =
        (search_fragment_program B st mem1 fp1).2.2) := by
  constructor
  · unfold search_vertex_program
    cases h : st.m_vertex_shader_cache.find?
        (fun e => vertex_program_compare e.1 vp.data) with
    | some e => simp [h]
    | none =>
      simp only [h]
      rw [find?_append_none h]
      rw [List.find?_cons_of_pos _ (by
        simp [vertex_program_compare])]
      simp
  · have hpred : ∀ e : List Nat × fragment_program_type,
        (fun e : List Nat × fragment_program_type =>
          fragment_program_compare B mem2 fp2.addr e.1) e =
        (fun e : List Nat × fragment_program_type =>
          fragment_program_compare B mem1 fp1.addr e.1) e := by
      intro e
      rw [Bool.eq_iff_iff, fragment_program_compare_iff, fragment_program_compare_iff,
        hcontent]
    unfold search_fragment_program
    rw [find?_congr_pred hpred]
    cases h : st.m_fragment_shader_cache.find?
        (fun e => fragment_program_compare B mem1 fp1.addr e.1) with
    | some e => simp [h]
    | none =>
      simp only [h]
      rw [find?_append_none h]
      rw [List.find?_cons_of_pos _ (by
        rw [fragment_program_compare_iff])]
      simp

/-- Witness for C3: the same vertex binary and two content-equal fragment
binaries at different addresses of mem_id whose scanned 48-byte prefixes
coincide modulo 256 (addresses 0 and 256). -/
theorem C3_resolve_idempotent_witness :
    ((search_vertex_program
          (search_vertex_program program_state_cache_init ⟨[1, 2]⟩).2.2 ⟨[1, 2]⟩).1 =
        (search_vertex_program program_state_cache_init ⟨[1, 2]⟩).1 ∧
      (search_vertex_program
          (search_vertex_program program_state_cache_init ⟨[1, 2]⟩).2.2 ⟨[1, 2]⟩).2.1 = true ∧
      (search_vertex_program
          (search_vertex_program program_state_cache_init ⟨[1, 2]⟩).2.2 ⟨[1, 2]⟩).2.2 =
        (search_vertex_program program_state_cache_init ⟨[1, 2]⟩).2.2) ∧
    ((search_fragment_program B1
          (search_fragment_program B1 program_state_cache_init mem_id ⟨0⟩).2.2 mem_id
          ⟨256⟩).1 =
        (search_fragment_program B1 program_state_cache_init mem_id ⟨0⟩).1 ∧
      (search_fragment_program B1
          (search_fragment_program B1 program_state_cache_init mem_id ⟨0⟩).2.2 mem_id
          ⟨256⟩).2.1 = true ∧
      (search_fragment_program B1
          (search_fragment_program B1 program_state_cache_init mem_id ⟨0⟩).2.2 mem_id
          ⟨256⟩).2.2 =
        (search_fragment_program B1 program_state_cache_init mem_id ⟨0⟩).2.2) :=
  C3_resolve_idempotent B1 program_state_cache_init ⟨[1, 2]⟩ mem_id mem_id ⟨0⟩ ⟨256⟩
    (by decide)

/-! ## C2 -/

theorem shuffle_bytes_length (s : List Nat) : (shuffle_bytes s).length = 16 := by
  simp [shuffle_bytes, shuffle_mask]

theorem shuffle_bytes_getD (s : List Nat) (j : Nat) (hj : j < 16) :
    (shuffle_bytes s).getD j 0 = s.getD (shuffle_mask.getD j 0) 0 := by
  have hj' : j < (shuffle_mask.map (fun i => s.getD i 0)).length := by
    simp [shuffle_mask]
    omega
  have hjm : j < shuffle_mask.length := by
    simp [shuffle_mask]
    omega
  rw [shuffle_bytes, List.getD_eq_getElem _ 0 hj', List.getElem_map,
    List.getD_eq_getElem _ 0 hjm]

theorem readBytes_getD (mem : Mem) (a n i : Nat) (h : i < n) :
    (readBytes mem a n).getD i 0 = readByte mem (a + i) := by
  have h' : i < (readBytes mem a n).length := by
    rw [readBytes_length]
    exact h
  rw [List.getD_eq_getElem _ 0 h']
  simp [readBytes]

theorem write_group_take (dst g : List Nat) (pos : Nat) (hpos : pos ≤ dst.length) :
    (write_group dst pos g).take (pos + g.length) = dst.take pos ++ g := by
  have hA : (dst.take pos ++ g).length = pos + g.length := by
    simp
    omega
  unfold write_group
  rw [List.take_append_eq_append_take, List.take_of_length_le (by omega), hA,
    Nat.sub_self, List.take_zero, List.append_nil]

theorem write_group_drop (dst g : List Nat) (pos x : Nat) (hpos : pos ≤ dst.length)
    (hx : pos + g.length ≤ x) :
    (write_group dst pos g).drop x = dst.drop x := by
  have hA : (dst.take pos ++ g).length = pos + g.length := by
    simp
    omega
  unfold write_group
  rw [List.drop_append_eq_append_drop, List.drop_eq_nil_of_le (by omega), hA,
    List.nil_append, List.drop_drop]
  congr 1
  omega

theorem write_group_length (dst g : List Nat) (pos : Nat)
    (h : pos + g.length ≤ dst.length) : (write_group dst pos g).length = dst.length := by
  simp [write_group]
  omega

theorem fill_loop_eq (mem : Mem) (addr : Nat) (offsets : List Nat) :
    ∀ (dst : List Nat) (pos : Nat), 4 * pos + 16 * offsets.length ≤ dst.length →
      fill_loop mem addr offsets dst pos =
        dst.take (4 * pos) ++ groups_concat mem addr offsets ++
          dst.drop (4 * pos + 16 * offsets.length) := by
  induction offsets with
  | nil =>
    intro dst pos h
    simp [fill_loop, groups_concat, List.take_append_drop]
  | cons o rest ih =>
    intro dst pos h
    simp only [List.length_cons] at h
    have hg : (shuffle_bytes (readBytes mem (addr + o) 16)).length = 16 :=
      shuffle_bytes_length _
    have step : fill_loop mem addr (o :: rest) dst pos =
        fill_loop mem addr rest
          (write_group dst (4 * pos) (shuffle_bytes (readBytes mem (addr + o) 16)))
          (pos + 4) := rfl
    have hdst1 : (write_group dst (4 * pos)
        (shuffle_bytes (readBytes mem (addr + o) 16))).length = dst.length := by
      rw [write_group_length]
      rw [hg]
      omega
    rw [step, ih _ (pos + 4) (by rw [hdst1]; omega)]
    have e2 : (write_group dst (4 * pos)
        (shuffle_bytes (readBytes mem (addr + o) 16))).take (4 * (pos + 4)) =
        dst.take (4 * pos) ++ shuffle_bytes (readBytes mem (addr + o) 16) := by
      have t := write_group_take dst (shuffle_bytes (readBytes mem (addr + o) 16))
        (4 * pos) (by omega)
      rw [hg] at t
      have e1 : 4 * (pos + 4) = 4 * pos + 16 := by omega
      rw [e1, t]
    have e3 : (write_group dst (4 * pos)
        (shuffle_bytes (readBytes mem (addr + o) 16))).drop (4 * (pos + 4) + 16 * rest.length) =
        dst.drop (4 * pos + 16 * (rest.length + 1)) := by
      rw [write_group_drop _ _ _ _ (by omega) (by rw [hg]; omega)]
      congr 1
      omega
    rw [e2, e3]
    have e4 : groups_concat mem addr (o :: rest) =
        shuffle_bytes (readBytes mem (addr + o) 16) ++ groups_concat mem addr rest := by
      simp [groups_concat]
    rw [e4]
    simp only [List.length_cons, List.append_assoc]

theorem shuffle_mask_getD_lt (j : Nat) (hj : j < 16) : shuffle_mask.getD j 0 < 16 := by
  interval_cases j <;> decide

theorem groups_concat_getD (mem : Mem) (addr : Nat) :
    ∀ (offsets : List Nat) (k j : Nat) (tail : List Nat), k < offsets.length → j < 16 →
      (groups_concat mem addr offsets ++ tail).getD (16 * k + j) 0 =
        readByte mem (addr + offsets.getD k 0 + shuffle_mask.getD j 0) := by
  intro offsets
  induction offsets with
  | nil =>
    intro k j tail hk
    simp at hk
  | cons o rest ih =>
    intro k j tail hk hj
    have e4 : groups_concat mem addr (o :: rest) =
        shuffle_bytes (readBytes mem (addr + o) 16) ++ groups_concat mem addr rest := by
      simp [groups_concat]
    rw [e4, List.append_assoc]
    cases k with
    | zero =>
      have hlt : 16 * 0 + j < (shuffle_bytes (readBytes mem (addr + o) 16)).length := by
        rw [shuffle_bytes_length]
        omega
      rw [List.getD_append _ _ _ _ hlt]
      simp only [Nat.mul_zero, Nat.zero_add]
      rw [shuffle_bytes_getD _ _ hj, readBytes_getD _ _ _ _ (shuffle_mask_getD_lt j hj)]
      simp [Nat.add_assoc]
    | succ k' =>
      have hge : (shuffle_bytes (readBytes mem (addr + o) 16)).length ≤ 16 * (k' + 1) + j := by
        rw [shuffle_bytes_length]
        omega
      rw [List.getD_append_right _ _ _ _ hge, shuffle_bytes_length]
      have e5 : 16 * (k' + 1) + j - 16 = 16 * k' + j := by omega
      rw [e5, ih k' j tail (by simpa using hk) hj]
      simp

/-- C2 counterexample: the spec scenario itself (48-byte fragment binary,
one constant at offset 16 holding big-endian lanes 0x3F800000, 0x40000000,
0x40400000, 0x40800000). The code's shuffle swaps the bytes within each
16-bit half of every lane, so the first destination lane holds the
little-endian bytes 80 3F 00 00 (the word 0x00003F80), not 00 00 80 3F
(the word 0x3F800000, the float 1.0 the claim demands). -/
theorem C2_counterexample :
    fill_fragment_constans_buffer B_c2 st_c2 (List.replicate 16 0) mem_c2 ⟨0⟩ =
      some [0x80, 0x3F, 0, 0, 0, 0x40, 0, 0, 0x40, 0x40, 0, 0, 0x80, 0x40, 0, 0] ∧
    (fill_fragment_constans_buffer B_c2 st_c2 (List.replicate 16 0) mem_c2 ⟨0⟩ ≠
      some [0, 0, 0x80, 0x3F, 0, 0, 0, 0x40, 0, 0, 0x40, 0x40, 0, 0, 0x80, 0x40]) := by
  exact ⟨by decide, by decide⟩

/-- C2 amended: for a resolved fragment program with offset list
o_1 .. o_n and a destination of at least n * 16 bytes, extraction writes
exactly n 16-byte groups into consecutive 16-byte slots in offset-list
order and leaves the rest of the destination unchanged; group k holds the
16 bytes read at base + o_k transformed lane-preserving by shuffle_mask,
which swaps the two bytes within each 16-bit half of every 32-bit lane
(b0 b1 b2 b3 becomes b1 b0 b3 b2) rather than fully reversing each lane,
so a source lane holding big-endian 0x3F800000 decodes in the destination
as the little-endian word 0x00003F80. -/
theorem C2_fill_pairswap (B : backend_traits) (st : CacheState) (dst : List Nat)
    (mem : Mem) (fp : RSXFragmentProgram) (e : List Nat × fragment_program_type)
    (hfind : st.m_fragment_shader_cache.find?
        (fun x => fragment_program_compare B mem fp.addr x.1) = some e)
    (hlen : e.2.FragmentConstantOffsetCache.length * 16 ≤ dst.length) :
    fill_fragment_constans_buffer B st dst mem fp =
      some (groups_concat mem fp.addr e.2.FragmentConstantOffsetCache ++
        dst.drop (16 * e.2.FragmentConstantOffsetCache.length)) ∧
    (∀ k, k < e.2.FragmentConstantOffsetCache.length → ∀ j, j < 16 →
      (groups_concat mem fp.addr e.2.FragmentConstantOffsetCache ++
          dst.drop (16 * e.2.FragmentConstantOffsetCache.length)).getD (16 * k + j) 0 =
        readByte mem
          (fp.addr + e.2.FragmentConstantOffsetCache.getD k 0 + shuffle_mask.getD j 0)) := by
  constructor
  · unfold fill_fragment_constans_buffer
    simp only [hfind]
    rw [if_pos hlen, fill_loop_eq mem fp.addr _ dst 0 (by omega)]
    simp
  · intro k hk j hj
    exact groups_concat_getD mem fp.addr _ k j _ hk hj

/-- Witness for C2 amended at the spec scenario: the resolved entry has one
offset, so one shuffled group is written followed by the untouched tail. -/
theorem C2_fill_pairswap_witness :
    (fill_fragment_constans_buffer B_c2 st_c2 (List.replicate 20 7) mem_c2 ⟨0⟩ =
      some (groups_concat mem_c2 0 [16] ++ (List.replicate 20 7).drop 16)) ∧
    (∀ k, k < ([16] : List Nat).length → ∀ j, j < 16 →
      (groups_concat mem_c2 0 [16] ++ (List.replicate 20 7).drop 16).getD (16 * k + j) 0 =
        readByte mem_c2 (0 + ([16] : List Nat).getD k 0 + shuffle_mask.getD j 0)) :=
  C2_fill_pairswap B_c2 st_c2 (List.replicate 20 7) mem_c2 ⟨0⟩
    (readBytes mem_c2 0 48, ⟨0, [16]⟩) (by decide) (by decide)

/-! ## C10 -/

/-- C10: the extraction loop reads each constant through vm at the
caller-supplied address plus the recorded offset at extraction time, not
from the cache's durable copy. In this scenario the binary was resolved
while memory was all zero, the guest bytes at base + 16 were overwritten
afterwards (the copied 16-byte key is untouched, so the lookup still
hits), and the extracted group equals the shuffled current memory
contents, which differ from the shuffled resolve-time contents. -/
theorem C10_fill_reads_live_memory :
    (fill_fragment_constans_buffer B_c10 st_c10 (List.replicate 16 5) mem_c10 ⟨0⟩ =
      some (shuffle_bytes (readBytes mem_c10 (0 + 16) 16))) ∧
    (readBytes mem_c10 (0 + 16) 16 ≠ readBytes mem0 (0 + 16) 16) ∧
    (fill_fragment_constans_buffer B_c10 st_c10 (List.replicate 16 5) mem_c10 ⟨0⟩ ≠
      some (shuffle_bytes (readBytes mem0 (0 + 16) 16))) := by
  exact ⟨by decide, by decide, by decide⟩

/-! ## Pipeline cache lemmas -/

theorem pipeline_key_compare_iff (k1 k2 : pipeline_key) :
    pipeline_key_compare k1 k2 = true ↔ k1 = k2 := by
  unfold pipeline_key_compare
  rw [Bool.and_eq_true, Bool.and_eq_true, beq_iff_eq, beq_iff_eq, beq_iff_eq]
  constructor
  · rintro ⟨⟨h1, h2⟩, h3⟩
    cases k1
    cases k2
    simp_all
  · rintro rfl
    exact ⟨⟨rfl, rfl⟩, rfl⟩

theorem storage_insert_find (s : List (pipeline_key × Nat)) (k : pipeline_key) (v : Nat) :
    (storage_insert s k v).find? (fun e => pipeline_key_compare e.1 k) = some (k, v) := by
  induction s with
  | nil =>
    rw [storage_insert, List.find?_cons_of_pos _ (by rw [pipeline_key_compare_iff])]
  | cons e rest ih =>
    rw [storage_insert]
    by_cases hc : pipeline_key_compare e.1 k = true
    · rw [if_pos hc, List.find?_cons_of_pos _ (by exact hc),
        (pipeline_key_compare_iff e.1 k).mp hc]
    · rw [if_neg hc, List.find?_cons_of_neg _ (by exact hc)]
      exact ih

theorem storage_insert_mem (s : List (pipeline_key × Nat)) (k : pipeline_key) (v : Nat) :
    ∀ x ∈ storage_insert s k v, x = (k, v) ∨ x ∈ s := by
  induction s with
  | nil =>
    intro x hx
    rw [storage_insert] at hx
    exact Or.inl (List.mem_singleton.mp hx)
  | cons e rest ih =>
    intro x hx
    rw [storage_insert] at hx
    by_cases hc : pipeline_key_compare e.1 k = true
    · rw [if_pos hc] at hx
      rcases List.mem_cons.mp hx with rfl | h
      · exact Or.inl (by rw [(pipeline_key_compare_iff e.1 k).mp hc])
      · exact Or.inr (List.mem_cons_of_mem _ h)
    · rw [if_neg hc] at hx
      rcases List.mem_cons.mp hx with rfl | h
      · exact Or.inr (List.mem_cons_self _ _)
      · rcases ih x h with h1 | h1
        · exact Or.inl h1
        · exact Or.inr (List.mem_cons_of_mem _ h1)

theorem storage_insert_keys_mem (s : List (pipeline_key × Nat)) (k : pipeline_key) (v : Nat) :
    ∀ x ∈ (storage_insert s k v).map Prod.fst, x = k ∨ x ∈ s.map Prod.fst := by
  intro x hx
  rcases List.mem_map.mp hx with ⟨p, hp, rfl⟩
  rcases storage_insert_mem s k v p hp with rfl | h
  · exact Or.inl rfl
  · exact Or.inr (List.mem_map_of_mem _ h)

theorem storage_insert_keys_pairwise (s : List (pipeline_key × Nat)) (k : pipeline_key)
    (v : Nat) (h : (s.map Prod.fst).Pairwise (fun a b => a ≠ b)) :
    ((storage_insert s k v).map Prod.fst).Pairwise (fun a b => a ≠ b) := by
  induction s with
  | nil => simp [storage_insert]
  | cons e rest ih =>
    rw [storage_insert]
    simp only [List.map_cons, List.pairwise_cons] at h
    by_cases hc : pipeline_key_compare e.1 k = true
    · rw [if_pos hc]
      simp only [List.map_cons, List.pairwise_cons]
      exact h
    · rw [if_neg hc]
      simp only [List.map_cons, List.pairwise_cons]
      refine ⟨?_, ih h.2⟩
      intro x hx
      rcases storage_insert_keys_mem rest k v x hx with rfl | hmem
      · intro hek
        exact hc ((pipeline_key_compare_iff e.1 x).mpr hek)
      · exact h.1 x hmem

/-! ## Frame and re-lookup lemmas for the stage searches -/

theorem svp_frame (st : CacheState) (vp : RSXVertexProgram) :
    (search_vertex_program st vp).2.2.m_fragment_shader_cache = st.m_fragment_shader_cache ∧
    (search_vertex_program st vp).2.2.m_storage = st.m_storage ∧
    st.m_next_id ≤ (search_vertex_program st vp).2.2.m_next_id := by
  unfold search_vertex_program
  cases h : st.m_vertex_shader_cache.find? (fun e => vertex_program_compare e.1 vp.data) <;>
    simp

theorem sfp_frame (B : backend_traits) (st : CacheState) (mem : Mem)
    (fp : RSXFragmentProgram) :
    (search_fragment_program B st mem fp).2.2.m_vertex_shader_cache = st.m_vertex_shader_cache ∧
    (search_fragment_program B st mem fp).2.2.m_storage = st.m_storage ∧
    st.m_next_id ≤ (search_fragment_program B st mem fp).2.2.m_next_id := by
  unfold search_fragment_program
  cases h : st.m_fragment_shader_cache.find?
      (fun e => fragment_program_compare B mem fp.addr e.1) <;> simp

theorem svp_again (st : CacheState) (vp : RSXVertexProgram) (st' : CacheState)
    (hcache : st'.m_vertex_shader_cache =
      (search_vertex_program st vp).2.2.m_vertex_shader_cache) :
    search_vertex_program st' vp = ((search_vertex_program st vp).1, true, st') := by
  cases h : st.m_vertex_shader_cache.find? (fun e => vertex_program_compare e.1 vp.data) with
  | some e =>
    have h2 : st'.m_vertex_shader_cache.find?
        (fun e => vertex_program_compare e.1 vp.data) = some e := by
      rw [show st'.m_vertex_shader_cache = st.m_vertex_shader_cache from by
        rw [hcache]
        unfold search_vertex_program
        rw [h]]
      exact h
    unfold search_vertex_program
    rw [h2, h]
  | none =>
    have h2 : st'.m_vertex_shader_cache.find?
        (fun e => vertex_program_compare e.1 vp.data) =
        some (vp.data, recompile_vertex_program st.m_next_id) := by
      rw [show st'.m_vertex_shader_cache =
          st.m_vertex_shader_cache ++ [(vp.data, recompile_vertex_program st.m_next_id)] from by
        rw [hcache]
        unfold search_vertex_program
        rw [h]]
      rw [find?_append_none h, List.find?_cons_of_pos _ (by simp [vertex_program_compare])]
    unfold search_vertex_program
    rw [h2, h]

theorem sfp_again (B : backend_traits) (st : CacheState) (mem1 mem2 : Mem)
    (fp1 fp2 : RSXFragmentProgram) (st' : CacheState)
    (hcontent : readBytes mem2 fp2.addr (B.scan mem2 fp2.addr) =
      readBytes mem1 fp1.addr (B.scan mem1 fp1.addr))
    (hcache : st'.m_fragment_shader_cache =
      (search_fragment_program B st mem1 fp1).2.2.m_fragment_shader_cache) :
    search_fragment_program B st' mem2 fp2 =
      ((search_fragment_program B st mem1 fp1).1, true, st') := by
  have hpred : ∀ e : List Nat × fragment_program_type,
      (fun e : List Nat × fragment_program_type =>
        fragment_program_compare B mem2 fp2.addr e.1) e =
      (fun e : List Nat × fragment_program_type =>
        fragment_program_compare B mem1 fp1.addr e.1) e := by
    intro e
    rw [Bool.eq_iff_iff, fragment_program_compare_iff, fragment_program_compare_iff, hcontent]
  cases h : st.m_fragment_shader_cache.find?
      (fun e => fragment_program_compare B mem1 fp1.addr e.1) with
  | some e =>
    have h2 : st'.m_fragment_shader_cache.find?
        (fun e => fragment_program_compare B mem2 fp2.addr e.1) = some e := by
      rw [find?_congr_pred hpred]
      rw [show st'.m_fragment_shader_cache = st.m_fragment_shader_cache from by
        rw [hcache]
        unfold search_fragment_program
        rw [h]]
      exact h
    unfold search_fragment_program
    rw [h2, h]
  | none =>
    have h2 : st'.m_fragment_shader_cache.find?
        (fun e => fragment_program_compare B mem2 fp2.addr e.1) =
        some (readBytes mem1 fp1.addr (B.scan mem1 fp1.addr),
          recompile_fragment_program B mem1 fp1.addr st.m_next_id) := by
      rw [find?_congr_pred hpred]
      rw [show st'.m_fragment_shader_cache =
          st.m_fragment_shader_cache ++
            [(readBytes mem1 fp1.addr (B.scan mem1 fp1.addr),
              recompile_fragment_program B mem1 fp1.addr st.m_next_id)] from by
        rw [hcache]
        unfold search_fragment_program
        rw [h]]
      rw [find?_append_none h,
        List.find?_cons_of_pos _ (by rw [fragment_program_compare_iff])]
    unfold search_fragment_program
    rw [h2, h]

theorem gGPS_unfold (B : backend_traits) (st : CacheState) (vps : RSXVertexProgram)
    (mem : Mem) (fps : RSXFragmentProgram) (props : Nat)
    (v : vertex_program_type) (bv : Bool) (stA : CacheState)
    (f : fragment_program_type) (bf : Bool) (stB : CacheState)
    (hv : search_vertex_program st vps = (v, bv, stA))
    (hf : search_fragment_program B stA mem fps = (f, bf, stB)) :
    getGraphicPipelineState B st vps mem fps props =
      match (if bf && bv then
          stB.m_storage.find? (fun e => pipeline_key_compare e.1 ⟨v.id, f.id, props⟩)
        else none) with
      | some e => (e.2, false, stB)
      | none =>
        (B.build_pipeline v f props, true,
          { stB with
            m_storage := storage_insert stB.m_storage ⟨v.id, f.id, props⟩ (B.build_pipeline v f props) }) := by
  unfold getGraphicPipelineState
  simp only [hv, hf]

/-! ## C5 -/

/-- C5: getGraphicPipelineState is idempotent. If the first call invoked
build_pipeline, then a second call with the same vertex binary,
content-equal fragment binary and equal properties returns the very value
stored by the first call, does not invoke build_pipeline again, and leaves
the cache state untouched, so exactly one build happens across the two
calls; moreover distinctness of the stored pipeline keys is preserved, so
at most one PipelineObject exists per distinct PipelineKey. -/
theorem C5_pipeline_idempotent (B : backend_traits) (st : CacheState)
    (vpShader : RSXVertexProgram) (mem1 mem2 : Mem) (fp1 fp2 : RSXFragmentProgram)
    (props : Nat)
    (hcontent : readBytes mem2 fp2.addr (B.scan mem2 fp2.addr) =
      readBytes mem1 fp1.addr (B.scan mem1 fp1.addr))
    (hbuilt : (getGraphicPipelineState B st vpShader mem1 fp1 props).2.1 = true)
    (hkeys : (st.m_storage.map Prod.fst).Pairwise (fun a b => a ≠ b)) :
    (getGraphicPipelineState B (getGraphicPipelineState B st vpShader mem1 fp1 props).2.2
        vpShader mem2 fp2 props).1 =
      (getGraphicPipelineState B st vpShader mem1 fp1 props).1 ∧
    (getGraphicPipelineState B (getGraphicPipelineState B st vpShader mem1 fp1 props).2.2
        vpShader mem2 fp2 props).2.1 = false ∧
    (getGraphicPipelineState B (getGraphicPipelineState B st vpShader mem1 fp1 props).2.2
        vpShader mem2 fp2 props).2.2 =
      (getGraphicPipelineState B st vpShader mem1 fp1 props).2.2 ∧
    ((getGraphicPipelineState B st vpShader mem1 fp1 props).2.2.m_storage.map
        Prod.fst).Pairwise (fun a b => a ≠ b) := by
  rcases hA : search_vertex_program st vpShader with ⟨v, bv, stA⟩
  rcases hB : search_fragment_program B stA mem1 fp1 with ⟨f, bf, stB⟩
  have g1 := gGPS_unfold B st vpShader mem1 fp1 props v bv stA f bf stB hA hB
  cases hprobe : (if bf && bv then
      stB.m_storage.find? (fun e => pipeline_key_compare e.1 ⟨v.id, f.id, props⟩)
    else none) with
  | some e =>
    rw [hprobe] at g1
    rw [g1] at hbuilt
    simp at hbuilt
  | none =>
    rw [hprobe] at g1
    have hstA_st : stA.m_storage = st.m_storage := by
      have := (svp_frame st vpShader).2.1
      rw [hA] at this
      exact this
    have hstB_stA : stB.m_storage = stA.m_storage := by
      have := (sfp_frame B stA mem1 fp1).2.1
      rw [hB] at this
      exact this
    have hvcB : stB.m_vertex_shader_cache = stA.m_vertex_shader_cache := by
      have := (sfp_frame B stA mem1 fp1).1
      rw [hB] at this
      exact this
    have hvc : ({ stB with
        m_storage := storage_insert stB.m_storage ⟨v.id, f.id, props⟩
          (B.build_pipeline v f props) } : CacheState).m_vertex_shader_cache =
        (search_vertex_program st vpShader).2.2.m_vertex_shader_cache := by
      rw [hA]
      exact hvcB
    have h2v := svp_again st vpShader _ hvc
    rw [hA] at h2v
    have hfc : ({ stB with
        m_storage := storage_insert stB.m_storage ⟨v.id, f.id, props⟩
          (B.build_pipeline v f props) } : CacheState).m_fragment_shader_cache =
        (search_fragment_program B stA mem1 fp1).2.2.m_fragment_shader_cache := by
      rw [hB]
    have h2f := sfp_again B stA mem1 mem2 fp1 fp2 _ hcontent hfc
    rw [hB] at h2f
    have g2 := gGPS_unfold B
      ({ stB with
        m_storage := storage_insert stB.m_storage ⟨v.id, f.id, props⟩
          (B.build_pipeline v f props) } : CacheState)
      vpShader mem2 fp2 props v true _ f true _ h2v h2f
    have hcond : (if (true && true : Bool) then
        ({ stB with
          m_storage := storage_insert stB.m_storage ⟨v.id, f.id, props⟩
            (B.build_pipeline v f props) } : CacheState).m_storage.find?
          (fun e => pipeline_key_compare e.1 ⟨v.id, f.id, props⟩)
      else none) =
        (storage_insert stB.m_storage ⟨v.id, f.id, props⟩
          (B.build_pipeline v f props)).find?
          (fun e => pipeline_key_compare e.1 ⟨v.id, f.id, props⟩) := rfl
    rw [hcond, storage_insert_find] at g2
    rw [g1, g2]
    refine ⟨rfl, rfl, rfl, ?_⟩
    rw [hstB_stA, hstA_st]
    exact storage_insert_keys_pairwise st.m_storage _ _ hkeys

/-- Witness for C5: a fresh cache, one vertex binary and two content-equal
fragment binaries at addresses 0 and 256 of mem_id; the first call builds,
the second reuses everything. -/
theorem C5_pipeline_idempotent_witness :
    (getGraphicPipelineState B1
        (getGraphicPipelineState B1 program_state_cache_init ⟨[3]⟩ mem_id ⟨0⟩ 5).2.2
        ⟨[3]⟩ mem_id ⟨256⟩ 5).1 =
      (getGraphicPipelineState B1 program_state_cache_init ⟨[3]⟩ mem_id ⟨0⟩ 5).1 ∧
    (getGraphicPipelineState B1
        (getGraphicPipelineState B1 program_state_cache_init ⟨[3]⟩ mem_id ⟨0⟩ 5).2.2
        ⟨[3]⟩ mem_id ⟨256⟩ 5).2.1 = false ∧
    (getGraphicPipelineState B1
        (getGraphicPipelineState B1 program_state_cache_init ⟨[3]⟩ mem_id ⟨0⟩ 5).2.2
        ⟨[3]⟩ mem_id ⟨256⟩ 5).2.2 =
      (getGraphicPipelineState B1 program_state_cache_init ⟨[3]⟩ mem_id ⟨0⟩ 5).2.2 ∧
    ((getGraphicPipelineState B1 program_state_cache_init ⟨[3]⟩ mem_id ⟨0⟩
        5).2.2.m_storage.map Prod.fst).Pairwise (fun a b => a ≠ b) :=
  C5_pipeline_idempotent B1 program_state_cache_init ⟨[3]⟩ mem_id mem_id ⟨0⟩ ⟨256⟩ 5
    (by decide) (by decide) (by simp [program_state_cache_init])

/-! ## Identity-bound invariant -/

theorem svp_bounds (st : CacheState) (vp : RSXVertexProgram) (h : ids_bounded st) :
    ids_bounded (search_vertex_program st vp).2.2 ∧
    (search_vertex_program st vp).1.id < (search_vertex_program st vp).2.2.m_next_id := by
  obtain ⟨h1, h2, h3⟩ := h
  unfold search_vertex_program
  cases hf : st.m_vertex_shader_cache.find? (fun e => vertex_program_compare e.1 vp.data) with
  | some e =>
    simp only [hf]
    exact ⟨⟨h1, h2, h3⟩, h1 e (List.mem_of_find?_eq_some hf)⟩
  | none =>
    simp only [hf]
    refine ⟨⟨?_, ?_, ?_⟩, ?_⟩
    · intro e he
      rcases List.mem_append.mp he with hm | hm
      · exact Nat.lt_succ_of_lt (h1 e hm)
      · rw [List.mem_singleton.mp hm]
        exact Nat.lt_succ_self _
    · intro e he
      exact Nat.lt_succ_of_lt (h2 e he)
    · intro e he
      exact ⟨Nat.lt_succ_of_lt (h3 e he).1, Nat.lt_succ_of_lt (h3 e he).2⟩
    · exact Nat.lt_succ_self _

theorem sfp_bounds (B : backend_traits) (st : CacheState) (mem : Mem)
    (fp : RSXFragmentProgram) (h : ids_bounded st) :
    ids_bounded (search_fragment_program B st mem fp).2.2 ∧
    (search_fragment_program B st mem fp).1.id <
      (search_fragment_program B st mem fp).2.2.m_next_id := by
  obtain ⟨h1, h2, h3⟩ := h
  unfold search_fragment_program
  cases hf : st.m_fragment_shader_cache.find?
      (fun e => fragment_program_compare B mem fp.addr e.1) with
  | some e =>
    simp only [hf]
    exact ⟨⟨h1, h2, h3⟩, h2 e (List.mem_of_find?_eq_some hf)⟩
  | none =>
    simp only [hf]
    refine ⟨⟨?_, ?_, ?_⟩, ?_⟩
    · intro e he
      exact Nat.lt_succ_of_lt (h1 e he)
    · intro e he
      rcases List.mem_append.mp he with hm | hm
      · exact Nat.lt_succ_of_lt (h2 e hm)
      · rw [List.mem_singleton.mp hm]
        exact Nat.lt_succ_self _
    · intro e he
      exact ⟨Nat.lt_succ_of_lt (h3 e he).1, Nat.lt_succ_of_lt (h3 e he).2⟩
    · exact Nat.lt_succ_self _

theorem svp_miss_id (st : CacheState) (vp : RSXVertexProgram)
    (h : (search_vertex_program st vp).2.1 = false) :
    (search_vertex_program st vp).1.id = st.m_next_id := by
  unfold search_vertex_program at *
  cases hf : st.m_vertex_shader_cache.find? (fun e => vertex_program_compare e.1 vp.data) with
  | some e =>
    rw [hf] at h
    simp at h
  | none => simp [hf, recompile_vertex_program]

theorem sfp_miss_id (B : backend_traits) (st : CacheState) (mem : Mem)
    (fp : RSXFragmentProgram)
    (h : (search_fragment_program B st mem fp).2.1 = false) :
    (search_fragment_program B st mem fp).1.id = st.m_next_id := by
  unfold search_fragment_program at *
  cases hf : st.m_fragment_shader_cache.find?
      (fun e => fragment_program_compare B mem fp.addr e.1) with
  | some e =>
    rw [hf] at h
    simp at h
  | none => simp [hf, recompile_fragment_program]

theorem svp_hit_state (st : CacheState) (vp : RSXVertexProgram)
    (h : (search_vertex_program st vp).2.1 = true) :
    (search_vertex_program st vp).2.2 = st := by
  unfold search_vertex_program at *
  cases hf : st.m_vertex_shader_cache.find? (fun e => vertex_program_compare e.1 vp.data) with
  | some e => simp [hf]
  | none =>
    rw [hf] at h
    simp at h

theorem gGPS_bounds (B : backend_traits) (st : CacheState) (vps : RSXVertexProgram)
    (mem : Mem) (fps : RSXFragmentProgram) (props : Nat) (h : ids_bounded st) :
    ids_bounded (getGraphicPipelineState B st vps mem fps props).2.2 := by
  rcases hA : search_vertex_program st vps with ⟨v, bv, stA⟩
  rcases hB : search_fragment_program B stA mem fps with ⟨f, bf, stB⟩
  have hAb := svp_bounds st vps h
  rw [hA] at hAb
  have hBb := sfp_bounds B stA mem fps hAb.1
  rw [hB] at hBb
  have hvb : v.id < stB.m_next_id := by
    have := (sfp_frame B stA mem fps).2.2
    rw [hB] at this
    exact Nat.lt_of_lt_of_le hAb.2 this
  have g1 := gGPS_unfold B st vps mem fps props v bv stA f bf stB hA hB
  cases hprobe : (if bf && bv then
      stB.m_storage.find? (fun e => pipeline_key_compare e.1 ⟨v.id, f.id, props⟩)
    else none) with
  | some e =>
    rw [hprobe] at g1
    rw [g1]
    exact hBb.1
  | none =>
    rw [hprobe] at g1
    rw [g1]
    obtain ⟨b1, b2, b3⟩ := hBb.1
    refine ⟨b1, b2, ?_⟩
    intro e he
    rcases storage_insert_mem stB.m_storage _ _ e he with rfl | hm
    · exact ⟨hvb, hBb.2⟩
    · exact b3 e hm

theorem gGPS_always_probe_unfold (B : backend_traits) (st : CacheState)
    (vps : RSXVertexProgram) (mem : Mem) (fps : RSXFragmentProgram) (props : Nat)
    (v : vertex_program_type) (bv : Bool) (stA : CacheState)
    (f : fragment_program_type) (bf : Bool) (stB : CacheState)
    (hv : search_vertex_program st vps = (v, bv, stA))
    (hf : search_fragment_program B stA mem fps = (f, bf, stB)) :
    getGraphicPipelineState_always_probe B st vps mem fps props =
      match stB.m_storage.find? (fun e => pipeline_key_compare e.1 ⟨v.id, f.id, props⟩) with
      | some e => (e.2, false, stB)
      | none =>
        (B.build_pipeline v f props, true,
          { stB with
            m_storage := storage_insert stB.m_storage ⟨v.id, f.id, props⟩ (B.build_pipeline v f props) }) := by
  unfold getGraphicPipelineState_always_probe
  simp only [hv, hf]

theorem gGPS_always_probe_eq (B : backend_traits) (st : CacheState)
    (vps : RSXVertexProgram) (mem : Mem) (fps : RSXFragmentProgram) (props : Nat)
    (h : ids_bounded st) :
    getGraphicPipelineState_always_probe B st vps mem fps props =
      getGraphicPipelineState B st vps mem fps props := by
  rcases hA : search_vertex_program st vps with ⟨v, bv, stA⟩
  rcases hB : search_fragment_program B stA mem fps with ⟨f, bf, stB⟩
  have g1 := gGPS_unfold B st vps mem fps props v bv stA f bf stB hA hB
  have g2 := gGPS_always_probe_unfold B st vps mem fps props v bv stA f bf stB hA hB
  by_cases hboth : (bf && bv) = true
  · rw [if_pos hboth] at g1
    rw [g1, g2]
  · rw [if_neg hboth] at g1
    have hstB_st : stB.m_storage = st.m_storage := by
      have hx := (sfp_frame B stA mem fps).2.1
      rw [hB] at hx
      have hy := (svp_frame st vps).2.1
      rw [hA] at hy
      rw [hx, hy]
    have hnone : stB.m_storage.find?
        (fun e => pipeline_key_compare e.1 ⟨v.id, f.id, props⟩) = none := by
      rw [List.find?_eq_none]
      intro e he
      rw [hstB_st] at he
      have hbound := h.2.2 e he
      intro hc
      have hek := (pipeline_key_compare_iff e.1 ⟨v.id, f.id, props⟩).mp hc
      rcases Bool.and_eq_false_iff.mp (Bool.eq_false_iff.mpr hboth) with hbf | hbv
      · have hfid : f.id = stA.m_next_id := by
          have := sfp_miss_id B stA mem fps (by rw [hB]; exact hbf)
          rw [hB] at this
          exact this
        have hnext : st.m_next_id ≤ stA.m_next_id := by
          have := (svp_frame st vps).2.2
          rw [hA] at this
          exact this
        have : e.1.fragment_program_id = f.id := by rw [hek]
        omega
      · have hvid : v.id = st.m_next_id := by
          have := svp_miss_id st vps (by rw [hA]; exact hbv)
          rw [hA] at this
          exact this
        have : e.1.vertex_program_id = v.id := by rw [hek]
        omega
    rw [hnone] at g2
    rw [g1, g2]

theorem init_bounds : ids_bounded program_state_cache_init := by
  refine ⟨?_, ?_, ?_⟩ <;> intro e he <;> simp [program_state_cache_init] at he

theorem run_bounds (B : backend_traits) (ops : List DrawOp) :
    ∀ st : CacheState, ids_bounded st → ids_bounded (run B st ops) := by
  induction ops with
  | nil => intro st h; exact h
  | cons op rest ih =>
    intro st h
    exact ih _ (gGPS_bounds B st op.vp op.mem op.fp op.props h)

/-! ## C6 -/

/-- C6: in every cache state reachable from a fresh cache by draw requests,
a freshly assigned stage-program identity occurs in no stored pipeline key,
so the implemented probe-only-on-double-hit getGraphicPipelineState and the
variant that always probes the pipeline table return the same pipeline
value, report the same build invocation, and leave the same final cache
state. -/
theorem C6_probe_refinement (B : backend_traits) (ops : List DrawOp)
    (vps : RSXVertexProgram) (mem : Mem) (fps : RSXFragmentProgram) (props : Nat) :
    getGraphicPipelineState_always_probe B (run B program_state_cache_init ops)
        vps mem fps props =
      getGraphicPipelineState B (run B program_state_cache_init ops) vps mem fps props :=
  gGPS_always_probe_eq B _ vps mem fps props
    (run_bounds B ops program_state_cache_init init_bounds)

/-! ## C4 -/

theorem svp_miss_next (st : CacheState) (vp : RSXVertexProgram)
    (h : (search_vertex_program st vp).2.1 = false) :
    (search_vertex_program st vp).2.2.m_next_id = st.m_next_id + 1 := by
  unfold search_vertex_program at *
  cases hf : st.m_vertex_shader_cache.find? (fun e => vertex_program_compare e.1 vp.data) with
  | some e =>
    rw [hf] at h
    simp at h
  | none => simp [hf]

theorem sfp_hit_state (B : backend_traits) (st : CacheState) (mem : Mem)
    (fp : RSXFragmentProgram)
    (h : (search_fragment_program B st mem fp).2.1 = true) :
    (search_fragment_program B st mem fp).2.2 = st := by
  unfold search_fragment_program at *
  cases hf : st.m_fragment_shader_cache.find?
      (fun e => fragment_program_compare B mem fp.addr e.1) with
  | some e => simp [hf]
  | none =>
    rw [hf] at h
    simp at h

theorem sfp_miss_next (B : backend_traits) (st : CacheState) (mem : Mem)
    (fp : RSXFragmentProgram)
    (h : (search_fragment_program B st mem fp).2.1 = false) :
    (search_fragment_program B st mem fp).2.2.m_next_id = st.m_next_id + 1 := by
  unfold search_fragment_program at *
  cases hf : st.m_fragment_shader_cache.find?
      (fun e => fragment_program_compare B mem fp.addr e.1) with
  | some e =>
    rw [hf] at h
    simp at h
  | none => simp [hf]

theorem run1_next (B : backend_traits) (st : CacheState) (op : DrawOp) :
    (run1 B st op).m_next_id =
      (search_fragment_program B (search_vertex_program st op.vp).2.2 op.mem op.fp).2.2.m_next_id := by
  rcases hA : search_vertex_program st op.vp with ⟨v, bv, stA⟩
  rcases hB : search_fragment_program B stA op.mem op.fp with ⟨f, bf, stB⟩
  have g1 := gGPS_unfold B st op.vp op.mem op.fp op.props v bv stA f bf stB hA hB
  show (run1 B st op).m_next_id = stB.m_next_id
  unfold run1
  rw [g1]
  cases hprobe : (if bf && bv then
      stB.m_storage.find? (fun e => pipeline_key_compare e.1 ⟨v.id, f.id, op.props⟩)
    else none) <;> rfl

theorem fresh_ids_range (B : backend_traits) (st : CacheState) (op : DrawOp) :
    ∃ k, fresh_ids_of B st op = List.range' st.m_next_id k ∧
      (run1 B st op).m_next_id = st.m_next_id + k := by
  rcases hA : search_vertex_program st op.vp with ⟨v, bv, stA⟩
  rcases hB : search_fragment_program B stA op.mem op.fp with ⟨f, bf, stB⟩
  have hrn : (run1 B st op).m_next_id = stB.m_next_id := by
    rw [run1_next B st op, hA, hB]
  have hfr : fresh_ids_of B st op =
      (if bv then [] else [v.id]) ++ (if bf then [] else [f.id]) := by
    unfold fresh_ids_of
    rw [hA]
    simp only
    rw [hB]
  cases bv with
  | true =>
    have hstA : stA = st := by
      have := svp_hit_state st op.vp (by rw [hA])
      rw [hA] at this
      exact this
    cases bf with
    | true =>
      have hstB : stB = stA := by
        have := sfp_hit_state B stA op.mem op.fp (by rw [hB])
        rw [hB] at this
        exact this
      refine ⟨0, ?_, ?_⟩
      · rw [hfr]
        rfl
      · rw [hrn, hstB, hstA]
        omega
    | false =>
      have hfid : f.id = stA.m_next_id := by
        have := sfp_miss_id B stA op.mem op.fp (by rw [hB])
        rw [hB] at this
        exact this
      have hnext : stB.m_next_id = stA.m_next_id + 1 := by
        have := sfp_miss_next B stA op.mem op.fp (by rw [hB])
        rw [hB] at this
        exact this
      refine ⟨1, ?_, ?_⟩
      · rw [hfr, hfid, hstA]
        rfl
      · rw [hrn, hnext, hstA]
  | false =>
    have hvid : v.id = st.m_next_id := by
      have := svp_miss_id st op.vp (by rw [hA])
      rw [hA] at this
      exact this
    have hnextA : stA.m_next_id = st.m_next_id + 1 := by
      have := svp_miss_next st op.vp (by rw [hA])
      rw [hA] at this
      exact this
    cases bf with
    | true =>
      have hstB : stB = stA := by
        have := sfp_hit_state B stA op.mem op.fp (by rw [hB])
        rw [hB] at this
        exact this
      refine ⟨1, ?_, ?_⟩
      · rw [hfr, hvid]
        rfl
      · rw [hrn, hstB, hnextA]
    | false =>
      have hfid : f.id = stA.m_next_id := by
        have := sfp_miss_id B stA op.mem op.fp (by rw [hB])
        rw [hB] at this
        exact this
      have hnextB : stB.m_next_id = stA.m_next_id + 1 := by
        have := sfp_miss_next B stA op.mem op.fp (by rw [hB])
        rw [hB] at this
        exact this
      refine ⟨2, ?_, ?_⟩
      · rw [hfr, hvid, hfid, hnextA]
        rfl
      · rw [hrn, hnextB, hnextA]

theorem run_ids_range (B : backend_traits) (ops : List DrawOp) :
    ∀ st : CacheState, ∃ n, run_ids B st ops = List.range' st.m_next_id n ∧
      (run B st ops).m_next_id = st.m_next_id + n := by
  induction ops with
  | nil =>
    intro st
    exact ⟨0, rfl, rfl⟩
  | cons op rest ih =>
    intro st
    obtain ⟨k, hk1, hk2⟩ := fresh_ids_range B st op
    obtain ⟨n, hn1, hn2⟩ := ih (run1 B st op)
    refine ⟨k + n, ?_, ?_⟩
    · have hr := List.range'_append st.m_next_id k n 1
      simp only [one_mul] at hr
      rw [run_ids, hk1, hn1, hk2, hr]
      congr 1
      omega
    · rw [run, hn2, hk2]
      omega

theorem svp_vcache (st : CacheState) (vp : RSXVertexProgram) :
    ∃ t, (search_vertex_program st vp).2.2.m_vertex_shader_cache =
      st.m_vertex_shader_cache ++ t := by
  unfold search_vertex_program
  cases h : st.m_vertex_shader_cache.find? (fun e => vertex_program_compare e.1 vp.data) with
  | some e => exact ⟨[], by simp⟩
  | none => exact ⟨[(vp.data, recompile_vertex_program st.m_next_id)], by simp⟩

theorem sfp_fcache (B : backend_traits) (st : CacheState) (mem : Mem)
    (fp : RSXFragmentProgram) :
    ∃ t, (search_fragment_program B st mem fp).2.2.m_fragment_shader_cache =
      st.m_fragment_shader_cache ++ t := by
  unfold search_fragment_program
  cases h : st.m_fragment_shader_cache.find?
      (fun e => fragment_program_compare B mem fp.addr e.1) with
  | some e => exact ⟨[], by simp⟩
  | none =>
    exact ⟨[(readBytes mem fp.addr (B.scan mem fp.addr),
      recompile_fragment_program B mem fp.addr st.m_next_id)], by simp⟩

theorem run1_caches (B : backend_traits) (st : CacheState) (op : DrawOp) :
    (∃ t, (run1 B st op).m_vertex_shader_cache = st.m_vertex_shader_cache ++ t) ∧
    (∃ t, (run1 B st op).m_fragment_shader_cache = st.m_fragment_shader_cache ++ t) := by
  rcases hA : search_vertex_program st op.vp with ⟨v, bv, stA⟩
  rcases hB : search_fragment_program B stA op.mem op.fp with ⟨f, bf, stB⟩
  have g1 := gGPS_unfold B st op.vp op.mem op.fp op.props v bv stA f bf stB hA hB
  obtain ⟨tv, htv⟩ := svp_vcache st op.vp
  rw [hA] at htv
  obtain ⟨tf, htf⟩ := sfp_fcache B stA op.mem op.fp
  rw [hB] at htf
  have hBv : stB.m_vertex_shader_cache = stA.m_vertex_shader_cache := by
    have := (sfp_frame B stA op.mem op.fp).1
    rw [hB] at this
    exact this
  have hAf : stA.m_fragment_shader_cache = st.m_fragment_shader_cache := by
    have := (svp_frame st op.vp).1
    rw [hA] at this
    exact this
  have hfin : (run1 B st op).m_vertex_shader_cache = stB.m_vertex_shader_cache ∧
      (run1 B st op).m_fragment_shader_cache = stB.m_fragment_shader_cache := by
    unfold run1
    rw [g1]
    cases hprobe : (if bf && bv then
        stB.m_storage.find? (fun e => pipeline_key_compare e.1 ⟨v.id, f.id, op.props⟩)
      else none) <;> exact ⟨rfl, rfl⟩
  exact ⟨⟨tv, by rw [hfin.1, hBv, htv]⟩, ⟨tf, by rw [hfin.2, htf, hAf]⟩⟩

theorem run_caches (B : backend_traits) (ops : List DrawOp) :
    ∀ st : CacheState,
      (∃ t, (run B st ops).m_vertex_shader_cache = st.m_vertex_shader_cache ++ t) ∧
      (∃ t, (run B st ops).m_fragment_shader_cache = st.m_fragment_shader_cache ++ t) := by
  induction ops with
  | nil =>
    intro st
    exact ⟨⟨[], by simp [run]⟩, ⟨[], by simp [run]⟩⟩
  | cons op rest ih =>
    intro st
    obtain ⟨⟨tv1, h1⟩, ⟨tf1, h2⟩⟩ := run1_caches B st op
    obtain ⟨⟨tv2, h3⟩, ⟨tf2, h4⟩⟩ := ih (run1 B st op)
    refine ⟨⟨tv1 ++ tv2, ?_⟩, ⟨tf1 ++ tf2, ?_⟩⟩
    · rw [run, h3, h1, List.append_assoc]
    · rw [run, h4, h2, List.append_assoc]

theorem ids_bounded_cache_ids (st : CacheState) (h : ids_bounded st) :
    ∀ j ∈ cache_ids st, j < st.m_next_id := by
  intro j hj
  rcases List.mem_append.mp hj with hm | hm
  · rcases List.mem_map.mp hm with ⟨e, he, rfl⟩
    exact h.1 e he
  · rcases List.mem_map.mp hm with ⟨e, he, rfl⟩
    exact h.2.1 e he

/-- C4: over any sequence of draw requests against a cache whose stored
identities are below the counter (true of every reachable state, in
particular the fresh cache), the freshly assigned identities are strictly
increasing in insertion order, so no identity is assigned twice; every
fresh identity exceeds every identity already stored, so none is reused;
and both stage caches only grow by appending, so no existing record's
identity is dropped or reassigned. -/
theorem C4_ids_monotone (B : backend_traits) (st : CacheState) (ops : List DrawOp)
    (h : ids_bounded st) :
    (run_ids B st ops).Pairwise (fun a b => a < b) ∧
    (∀ i ∈ run_ids B st ops, ∀ j ∈ cache_ids st, j < i) ∧
    (∃ t, (run B st ops).m_vertex_shader_cache = st.m_vertex_shader_cache ++ t) ∧
    (∃ t, (run B st ops).m_fragment_shader_cache = st.m_fragment_shader_cache ++ t) := by
  obtain ⟨n, h1, h2⟩ := run_ids_range B ops st
  refine ⟨?_, ?_, (run_caches B ops st).1, (run_caches B ops st).2⟩
  · rw [h1]
    exact List.pairwise_lt_range' _ _
  · intro i hi j hj
    rw [h1] at hi
    have hs : st.m_next_id ≤ i := (List.mem_range'_1.mp hi).1
    have hjb : j < st.m_next_id := ids_bounded_cache_ids st h j hj
    omega

/-- Witness for C4: two draw requests with distinct binaries from the fresh
cache assign the identities 0, 1, 2, 3 in order. -/
theorem C4_ids_monotone_witness :
    ((run_ids B1 program_state_cache_init
        [⟨⟨[1]⟩, mem_id, ⟨0⟩, 0⟩, ⟨⟨[2]⟩, mem_id, ⟨500⟩, 0⟩]).Pairwise
        (fun a b => a < b)) ∧
    (∀ i ∈ run_ids B1 program_state_cache_init
        [⟨⟨[1]⟩, mem_id, ⟨0⟩, 0⟩, ⟨⟨[2]⟩, mem_id, ⟨500⟩, 0⟩],
      ∀ j ∈ cache_ids program_state_cache_init, j < i) ∧
    (∃ t, (run B1 program_state_cache_init
        [⟨⟨[1]⟩, mem_id, ⟨0⟩, 0⟩, ⟨⟨[2]⟩, mem_id, ⟨500⟩, 0⟩]).m_vertex_shader_cache =
      program_state_cache_init.m_vertex_shader_cache ++ t) ∧
    (∃ t, (run B1 program_state_cache_init
        [⟨⟨[1]⟩, mem_id, ⟨0⟩, 0⟩, ⟨⟨[2]⟩, mem_id, ⟨500⟩, 0⟩]).m_fragment_shader_cache =
      program_state_cache_init.m_fragment_shader_cache ++ t) :=
  C4_ids_monotone B1 program_state_cache_init
    [⟨⟨[1]⟩, mem_id, ⟨0⟩, 0⟩, ⟨⟨[2]⟩, mem_id, ⟨500⟩, 0⟩] init_bounds

/-! ## C7 -/

theorem readBytes_congr (mem3 mem4 : Mem) (a n : Nat)
    (h : ∀ i, i < n → readByte mem3 (a + i) = readByte mem4 (a + i)) :
    readBytes mem3 a n = readBytes mem4 a n := by
  unfold readBytes
  refine List.map_congr_left ?_
  intro i hi
  exact h i (List.mem_range.mp hi)

/-- C7: the fragment hash and comparator work on the scanned prefix only
(spec-modelled, their bodies are not under src). Binaries with equal
scanned lengths and equal bytes up to that length hash equal and compare
equal, even with different trailing bytes or addresses; resolving both
produces a single fragment-cache entry (the second resolve is a hit that
changes nothing); binaries whose scanned length differs from a stored
copy's length compare unequal; and both hash and comparison are invariant
under any change of memory beyond the scanned prefix. -/
theorem C7_hash_compare_scanned_length (B : backend_traits) (st : CacheState)
    (mem1 mem2 : Mem) (fp1 fp2 : RSXFragmentProgram)
    (hlen : B.scan mem1 fp1.addr = B.scan mem2 fp2.addr)
    (hbytes : readBytes mem1 fp1.addr (B.scan mem1 fp1.addr) =
      readBytes mem2 fp2.addr (B.scan mem2 fp2.addr)) :
    (fragment_program_hash B mem1 fp1.addr = fragment_program_hash B mem2 fp2.addr) ∧
    (fragment_program_compare B mem1 fp1.addr
      (readBytes mem2 fp2.addr (B.scan mem2 fp2.addr)) = true) ∧
    ((search_fragment_program B (search_fragment_program B st mem1 fp1).2.2 mem2
        fp2).2.1 = true ∧
      (search_fragment_program B (search_fragment_program B st mem1 fp1).2.2 mem2
        fp2).2.2 = (search_fragment_program B st mem1 fp1).2.2) ∧
    (∀ (mem3 : Mem) (fp3 : RSXFragmentProgram) (c : List Nat),
      B.scan mem3 fp3.addr ≠ c.length →
      fragment_program_compare B mem3 fp3.addr c = false) ∧
    (∀ (mem3 mem4 : Mem) (a : Nat),
      B.scan mem3 a = B.scan mem4 a →
      (∀ i, i < B.scan mem3 a → readByte mem3 (a + i) = readByte mem4 (a + i)) →
      (fragment_program_hash B mem3 a = fragment_program_hash B mem4 a ∧
        ∀ c : List Nat,
          fragment_program_compare B mem3 a c = fragment_program_compare B mem4 a c)) := by
  refine ⟨?_, ?_, ?_, ?_, ?_⟩
  · unfold fragment_program_hash
    rw [hbytes]
  · rw [fragment_program_compare_iff]
    exact hbytes.symm
  · have hagain := sfp_again B st mem1 mem2 fp1 fp2
      (search_fragment_program B st mem1 fp1).2.2 hbytes.symm rfl
    rw [hagain]
    exact ⟨rfl, rfl⟩
  · intro mem3 fp3 c hne
    unfold fragment_program_compare
    rw [beq_eq_false_iff_ne.mpr hne, Bool.false_and]
  · intro mem3 mem4 a hscan hagree
    rw [hscan] at hagree
    constructor
    · unfold fragment_program_hash
      rw [hscan, readBytes_congr mem3 mem4 a _ hagree]
    · intro c
      by_cases hc : B.scan mem4 a = c.length
      · unfold fragment_program_compare
        rw [hscan, readBytes_congr mem3 mem4 a c.length
          (fun i hi => hagree i (by omega))]
      · unfold fragment_program_compare
        rw [beq_eq_false_iff_ne.mpr hc,
          beq_eq_false_iff_ne.mpr (by rw [hscan]; exact hc), Bool.false_and,
          Bool.false_and]

/-- Witness for C7: the binaries of mem_c7 at addresses 0 and 100 share
the scanned bytes 9 9 9 9 but have different trailing garbage; every part
of the theorem is instantiated concretely. -/
theorem C7_hash_compare_scanned_length_witness :
    (fragment_program_hash B_c7 mem_c7 0 = fragment_program_hash B_c7 mem_c7 100) ∧
    (fragment_program_compare B_c7 mem_c7 0
      (readBytes mem_c7 100 (B_c7.scan mem_c7 100)) = true) ∧
    ((search_fragment_program B_c7
        (search_fragment_program B_c7 program_state_cache_init mem_c7 ⟨0⟩).2.2 mem_c7
        ⟨100⟩).2.1 = true ∧
      (search_fragment_program B_c7
        (search_fragment_program B_c7 program_state_cache_init mem_c7 ⟨0⟩).2.2 mem_c7
        ⟨100⟩).2.2 =
        (search_fragment_program B_c7 program_state_cache_init mem_c7 ⟨0⟩).2.2) ∧
    (fragment_program_compare B_c7 mem_c7 0 [1, 2, 3] = false) ∧
    (fragment_program_hash B_c7 mem_c7 0 = fragment_program_hash B_c7 mem_c7b 0 ∧
      fragment_program_compare B_c7 mem_c7 0 [9, 9, 9, 9] =
        fragment_program_compare B_c7 mem_c7b 0 [9, 9, 9, 9]) := by
  have h := C7_hash_compare_scanned_length B_c7 program_state_cache_init mem_c7 mem_c7
    ⟨0⟩ ⟨100⟩ rfl (by decide)
  have h5 := h.2.2.2.2 mem_c7 mem_c7b 0 rfl (by decide)
  exact ⟨h.1, h.2.1, h.2.2.1, h.2.2.2.1 mem_c7 ⟨0⟩ [1, 2, 3] (by decide),
    h5.1, h5.2 [9, 9, 9, 9]⟩

end Rpcs3
